import Mathlib

/-!
Shallow embedding of the LMApi dispatch subsystem: the server pool registry
(`ServerPoolService`), the model-availability cache (`ModelCacheService`),
and the request queue/dispatcher (`QueueService`), together with the HTTP
prompt route handlers that call them.  Stateful TypeScript classes become
explicit state passing; `fetch` outcomes become explicit outcome parameters.
-/

namespace LMApi

/-- JSON-like parameter values carried in a request's `params` object. -/
inductive ParamVal where
  | pbool (b : Bool)
  | pnum (n : Int)
  | pstr (s : String)
  | pnull
deriving DecidableEq, Repr

/-- JavaScript truthiness of a `ParamVal`. -/
def ParamVal.truthy : ParamVal → Bool
  | .pbool b => b
  | .pnum n => n != 0
  | .pstr s => s != ""
  | .pnull => false

/-- Embeds `ServerConfig` from ConfigService: `{name, baseUrl}`. -/
structure ServerConfig where
  name : String
  baseUrl : String
deriving DecidableEq, Repr

/-- Embeds `ServerStatus` from ServerPoolService.  `activeRequests` is a JS number,
so it is embedded as `Int` (non-negativity is a property to prove, not a
representation choice). -/
structure ServerStatus where
  config : ServerConfig
  isOnline : Bool
  models : List String
  activeRequests : Int
  lastChecked : Nat
deriving DecidableEq, Repr

/-- The `statusMap : Map<string, ServerStatus>` keyed by server name is
embedded as a list in insertion order (JS `Map` preserves insertion order,
and overwriting an existing key keeps its position). -/
def poolGet (pool : List ServerStatus) (name : String) : Option ServerStatus :=
  pool.find? (fun s => s.config.name == name)

/-- Models `Map.set` semantics: replace in place when the key exists, append otherwise. -/
def poolSet (pool : List ServerStatus) (name : String) (st : ServerStatus) :
    List ServerStatus :=
  if pool.any (fun s => s.config.name == name) then
    pool.map (fun s => if s.config.name == name then st else s)
  else
    pool ++ [st]

/-- Models `name.split(':')` on a one-character separator, as a kernel-computable
recursion over the character list (`"".split(':')` is `[""]`,
`"a:".split(':')` is `["a", ""]`). -/
def splitChars (sep : Char) : List Char → List (List Char)
  | [] => [[]]
  | c :: cs =>
    match splitChars sep cs with
    | [] => [[c]]
    | g :: gs => if c = sep then [] :: g :: gs else (c :: g) :: gs

/-- Embeds `ServerPoolService.modelMatches`: split on `:`; `base` is the first
component, `tag` the second component defaulting to `"latest"` (a JS
destructuring `[base, tag] = name.split(':')` ignores later components). -/
def parseModelName (name : String) : String × String :=
  let parts := (splitChars ':' name.toList).map String.mk
  (parts.headD "", (parts.drop 1).headD "latest")

def modelMatches (availableModel requestedModel : String) : Bool :=
  (parseModelName availableModel).1 == (parseModelName requestedModel).1
    && (parseModelName availableModel).2 == (parseModelName requestedModel).2

/-- The status-record creation loop of `ServerPoolService.initialize`
(before the initial `refreshPool`): offline, no models, zero load. -/
def initPool (configs : List ServerConfig) : List ServerStatus :=
  configs.map (fun c =>
    { config := c, isOnline := false, models := [], activeRequests := 0, lastChecked := 0 })

/-- Embeds `ServerPoolService.refreshPool`.  The network side of
`ModelCacheService.refreshCache` is abstracted as `results : baseUrl →
model list` (the list the refresh produced for that URL); each configured
server's entry is rewritten, reading the old entry's `activeRequests`
(`?.activeRequests || 0`). -/
def refreshPool (pool : List ServerStatus) (configs : List ServerConfig)
    (results : String → List String) (now : Nat) : List ServerStatus :=
  configs.foldl (fun acc server =>
    let models := results server.baseUrl
    poolSet acc server.name
      { config := server
        isOnline := decide (0 < models.length)
        models := models
        activeRequests := ((poolGet acc server.name).map ServerStatus.activeRequests).getD 0
        lastChecked := now }) pool

/-- Embeds `ServerPoolService.getServers` (Map values in insertion order). -/
def getServers (pool : List ServerStatus) : List ServerStatus := pool

/-- Embeds `ServerPoolService.getServer`. -/
def getServer (pool : List ServerStatus) (name : String) : Option ServerStatus :=
  poolGet pool name

/-- Embeds `ServerPoolService.getAvailableServersForModel`. -/
def getAvailableServersForModel (pool : List ServerStatus) (modelName : String) :
    List ServerStatus :=
  (getServers pool).filter (fun s =>
    s.isOnline && s.models.any (fun m => modelMatches m modelName))

/-- Embeds `ServerPoolService.getBestServerForModel`: free candidates in pool order,
first one (priority order) or `none`. -/
def getBestServerForModel (pool : List ServerStatus) (modelName : String) :
    Option ServerStatus :=
  let candidates := getAvailableServersForModel pool modelName
  let freeCandidates := candidates.filter (fun s => s.activeRequests == 0)
  freeCandidates.head?

/-- Embeds `ServerPoolService.serverSupportsModel`. -/
def serverSupportsModel (server : ServerStatus) (modelName : String) : Bool :=
  server.isOnline && server.models.any (fun m => modelMatches m modelName)

/-- Embeds `ServerPoolService.incrementActiveRequests`: mutate the named entry if present. -/
def incrementActiveRequests (pool : List ServerStatus) (serverName : String) :
    List ServerStatus :=
  pool.map (fun s =>
    if s.config.name == serverName then
      { s with activeRequests := s.activeRequests + 1 }
    else s)

/-- Embeds `ServerPoolService.decrementActiveRequests`: guarded by `activeRequests > 0`. -/
def decrementActiveRequests (pool : List ServerStatus) (serverName : String) :
    List ServerStatus :=
  pool.map (fun s =>
    if s.config.name == serverName && decide (0 < s.activeRequests) then
      { s with activeRequests := s.activeRequests - 1 }
    else s)

/-! ## ModelCacheService -/

/-- Embeds `CacheEntry` from ModelCacheService. -/
structure CacheEntry where
  models : List String
  timestamp : Nat
deriving DecidableEq, Repr

/-- Constant `TTL_MS = 60 * 1000`. -/
def TTL_MS : Nat := 60 * 1000

/-- The `cache : Map<string, CacheEntry>` keyed by base URL. -/
def cacheGet (cache : List (String × CacheEntry)) (baseUrl : String) : Option CacheEntry :=
  (cache.find? (fun p => p.1 == baseUrl)).map Prod.snd

def cacheSet (cache : List (String × CacheEntry)) (baseUrl : String) (e : CacheEntry) :
    List (String × CacheEntry) :=
  if cache.any (fun p => p.1 == baseUrl) then
    cache.map (fun p => if p.1 == baseUrl then (baseUrl, e) else p)
  else
    cache ++ [(baseUrl, e)]

/-- Outcome of the `fetch(baseUrl + "/api/tags")` call inside `refreshCache`:
either the parsed model-name list, or any failure (timeout, connection
error, non-success status — all reach the same `catch`). -/
inductive TagsFetchOutcome where
  | ok (names : List String)
  | failure
deriving DecidableEq, Repr

/-- Embeds `ModelCacheService.refreshCache`: on success store and return the fetched
names; on any failure return the stale entry's models if present, else `[]`,
leaving the cache unchanged. -/
def refreshCache (cache : List (String × CacheEntry)) (baseUrl : String)
    (outcome : TagsFetchOutcome) (now : Nat) :
    List String × List (String × CacheEntry) :=
  match outcome with
  | .ok names => (names, cacheSet cache baseUrl { models := names, timestamp := now })
  | .failure =>
    match cacheGet cache baseUrl with
    | some entry => (entry.models, cache)
    | none => ([], cache)

/-- Embeds `ModelCacheService.getModels`: serve a fresh entry from the cache,
otherwise fall through to `refreshCache`. -/
def getModels (cache : List (String × CacheEntry)) (baseUrl : String)
    (outcome : TagsFetchOutcome) (now : Nat) :
    List String × List (String × CacheEntry) :=
  match cacheGet cache baseUrl with
  | some entry =>
    if now - entry.timestamp < TTL_MS then (entry.models, cache)
    else refreshCache cache baseUrl outcome now
  | none => refreshCache cache baseUrl outcome now

/-! ## QueueService -/

/-- Embeds `PromptRequest` from `src/types`: `serverName` and `params` are optional;
`params` is a JS object embedded as an association list in key order. -/
structure PromptRequest where
  prompt : String
  model : String
  serverName : Option String
  params : Option (List (String × ParamVal))
deriving DecidableEq, Repr

/-- Embeds `QueueItem` (its resolve/reject handles are represented by the dispatcher
outcomes below rather than stored callbacks). -/
structure QueueItem where
  id : String
  request : PromptRequest
  createdAt : Nat
deriving DecidableEq, Repr

/-- Embeds `QueueService.findServerForRequest`: a named (truthy, non-"any") server
must exist, be idle and support the model; otherwise delegate to
`getBestServerForModel`. -/
def findServerForRequest (pool : List ServerStatus) (request : PromptRequest) :
    Option ServerStatus :=
  let sn := request.serverName.getD ""
  if sn != "" && sn != "any" then
    match getServer pool sn with
    | some specific =>
      if specific.activeRequests == 0 && serverSupportsModel specific request.model then
        some specific
      else none
    | none => none
  else
    getBestServerForModel pool request.model

/-- State accumulated by one `processQueue` scan: the items handed to
`executeRequest` (with the chosen server's name), the pool as mutated by the
synchronous `incrementActiveRequests` prefix of each `runRequest`, and the
`remainingQueue` being built. -/
structure PassResult where
  executed : List (QueueItem × String)
  pool : List ServerStatus
  remaining : List QueueItem
deriving DecidableEq, Repr

/-- One iteration of the `for (const item of this.queue)` loop in
`processQueue`: `executeRequest(server, item)` runs `runRequest` up to its
first `await`, which increments the server's load counter before the next
item is considered. -/
def processQueueStep (acc : PassResult) (item : QueueItem) : PassResult :=
  match findServerForRequest acc.pool item.request with
  | some server =>
    { executed := acc.executed ++ [(item, server.config.name)]
      pool := incrementActiveRequests acc.pool server.config.name
      remaining := acc.remaining }
  | none => { acc with remaining := acc.remaining ++ [item] }

/-- One full (un-reentered) `processQueue` pass over the queue. -/
def processQueuePass (pool : List ServerStatus) (queue : List QueueItem) : PassResult :=
  queue.foldl processQueueStep { executed := [], pool := pool, remaining := [] }

/-- Immediately observable outcome of `dispatchOrQueue`: the request was
handed to `runRequest` on a server, or a queue item was created whose
completion handle is still pending. -/
inductive DispatchOutcome where
  | dispatched (serverName : String)
  | queued (id : String)
deriving DecidableEq, Repr

/-- Dispatcher state: the registry's pool and the queue. -/
structure DispatchState where
  pool : List ServerStatus
  queue : List QueueItem
deriving DecidableEq, Repr

/-- Embeds `QueueService.processQueue` (one un-reentered run): scan the queue,
execute the matched items, and assign `this.queue = remainingQueue`. -/
def processQueue (st : DispatchState) : DispatchState × List (QueueItem × String) :=
  let pass := processQueuePass st.pool st.queue
  ({ pool := pass.pool, queue := pass.remaining }, pass.executed)

/-- Embeds `QueueService.enqueue`: push the new item, then run `processQueue`.
Returns the executed items of that pass along with the new state. -/
def enqueue (st : DispatchState) (request : PromptRequest) (id : String) (now : Nat) :
    DispatchState × List (QueueItem × String) :=
  let pass := processQueuePass st.pool (st.queue ++ [{ id := id, request := request, createdAt := now }])
  ({ pool := pass.pool, queue := pass.remaining }, pass.executed)

/-- Embeds `QueueService.dispatchOrQueue` up to its first suspension point: if a
server is found the request runs there at once (`runRequest`'s synchronous
prefix increments the load counter); otherwise it is enqueued. -/
def dispatchOrQueue (st : DispatchState) (request : PromptRequest) (id : String) (now : Nat) :
    DispatchOutcome × DispatchState :=
  match findServerForRequest st.pool request with
  | some server =>
    (.dispatched server.config.name,
      { st with pool := incrementActiveRequests st.pool server.config.name })
  | none =>
    let (st2, _) := enqueue st request id now
    (.queued id, st2)

/-- Look up a key of the optional `params` object. -/
def paramGet (params : Option (List (String × ParamVal))) (key : String) : Option ParamVal :=
  match params with
  | none => none
  | some ps => (ps.find? (fun p => p.1 == key)).map Prod.snd

/-- JS truthiness of `request.params?.key` (`undefined` when the object or
the key is missing). -/
def paramTruthy (params : Option (List (String × ParamVal))) (key : String) : Bool :=
  match paramGet params key with
  | some v => v.truthy
  | none => false

/-- Endpoint selection in `runRequest`:
`request.params?.embedding ? '/api/embeddings' : '/api/generate'`. -/
def selectEndpoint (request : PromptRequest) : String :=
  if paramTruthy request.params "embedding" then "/api/embeddings" else "/api/generate"

/-- JS object-literal update: assigning an existing key overwrites its value
in place, a new key is appended. -/
def objSet (o : List (String × ParamVal)) (key : String) (v : ParamVal) :
    List (String × ParamVal) :=
  if o.any (fun p => p.1 == key) then
    o.map (fun p => if p.1 == key then (key, v) else p)
  else
    o ++ [(key, v)]

def objGet (o : List (String × ParamVal)) (key : String) : Option ParamVal :=
  (o.find? (fun p => p.1 == key)).map Prod.snd

def objDelete (o : List (String × ParamVal)) (key : String) : List (String × ParamVal) :=
  o.filter (fun p => p.1 != key)

/-- The outbound payload of `runRequest`:
`{model, prompt, stream: false, ...request.params}` followed by
`delete payload.embedding`.  The object spread writes each `params` entry in
key order over the base object. -/
def buildPayload (request : PromptRequest) : List (String × ParamVal) :=
  let base : List (String × ParamVal) :=
    [("model", .pstr request.model), ("prompt", .pstr request.prompt), ("stream", .pbool false)]
  let spread := (request.params.getD []).foldl (fun o kv => objSet o kv.1 kv.2) base
  objDelete spread "embedding"

/-- The JSON body of a completed backend `fetch`, as `runRequest` reads it:
`ok`/`statusText` from the HTTP response, `response`, `embedding` (already
stringified) and `eval_count`/`evalCount` from the body. -/
structure FetchResult where
  ok : Bool
  statusText : String
  response : Option String
  embedding : Option String
  evalCount : Option Int
deriving DecidableEq, Repr

/-- Outcome of the backend call inside `runRequest`: a reply (possibly with a
non-success status) or a thrown network/timeout error. -/
inductive BackendOutcome where
  | reply (r : FetchResult)
  | networkError (msg : String)
deriving DecidableEq, Repr

/-- Embeds `PromptResponse` from `src/types`. -/
structure PromptResponse where
  response : String
  durationMs : Nat
  serverName : String
  model : String
  created_at : String
deriving DecidableEq, Repr

/-- The record handed to `DbService.insertPromptHistory`. -/
structure HistoryRecord where
  serverName : String
  modelName : String
  prompt : String
  responseText : String
  responseDurationMs : Nat
  estimatedTokens : Option Int
  temperature : Option ParamVal
  createdAt : String
deriving DecidableEq, Repr

/-- Everything observable about one `runRequest` call: the settlement of the
returned promise, the pool and queue after the `finally` block (decrement
plus re-triggered `processQueue`), the items that pass dispatched, and the
history rows written. -/
structure RunResult where
  result : Except String PromptResponse
  pool : List ServerStatus
  queue : List QueueItem
  executed : List (QueueItem × String)
  history : List HistoryRecord
deriving Repr

/-- Embeds `QueueService.runRequest`: increment the server's counter, perform the
backend call, build the result and history row on success or rethrow the
failure, and in `finally` decrement the counter and re-run `processQueue`. -/
def runRequest (pool : List ServerStatus) (queue : List QueueItem) (server : ServerStatus)
    (request : PromptRequest) (outcome : BackendOutcome) (durationMs : Nat)
    (createdAt : String) : RunResult :=
  let serverName := server.config.name
  let pool1 := incrementActiveRequests pool serverName
  let finish := fun (result : Except String PromptResponse) (history : List HistoryRecord) =>
    let pool2 := decrementActiveRequests pool1 serverName
    let pass := processQueuePass pool2 queue
    { result := result, pool := pass.pool, queue := pass.remaining,
      executed := pass.executed, history := history : RunResult }
  match outcome with
  | .networkError msg => finish (.error msg) []
  | .reply r =>
    if !r.ok then
      finish (.error ("Ollama API error: " ++ r.statusText)) []
    else
      let hasResponse := r.response.isSome || r.embedding.isSome
      let responseText :=
        match r.response with
        | some s => if s != "" then s else r.embedding.getD ""
        | none => r.embedding.getD ""
      let result : PromptResponse :=
        { response := responseText, durationMs := durationMs, serverName := serverName,
          model := request.model, created_at := createdAt }
      let history :=
        if hasResponse then
          [{ serverName := serverName, modelName := request.model, prompt := request.prompt,
             responseText := responseText, responseDurationMs := durationMs,
             estimatedTokens := r.evalCount, temperature := paramGet request.params "temperature",
             createdAt := createdAt }]
        else []
      finish (.ok result) history

/-! ## Prompt route handlers (promptRoutes) -/

/-- Result of one prompt route invocation: a dispatcher outcome serialized as
the JSON reply, or an early error status. -/
inductive RouteResult where
  | ok (outcome : DispatchOutcome)
  | err (status : Nat) (message : String)
deriving DecidableEq, Repr

/-- Route `POST /generate/any`: `ensureModelAvailable` guards the dispatch — when no
available server hosts the model the handler replies 503 without touching the
dispatcher. -/
def handleGenerateAny (st : DispatchState) (prompt modelName : String)
    (params : Option (List (String × ParamVal))) (id : String) (now : Nat) :
    RouteResult × DispatchState :=
  if (getAvailableServersForModel st.pool modelName).isEmpty then
    (.err 503 ("No available servers host model \"" ++ modelName ++ "\""), st)
  else
    let req : PromptRequest :=
      { prompt := prompt, model := modelName, serverName := some "any", params := params }
    let (o, st2) := dispatchOrQueue st req id now
    (.ok o, st2)

/-- Route `POST /generate/server`: 404 for an unknown server, 503 when the named
server does not support the model, otherwise dispatch. -/
def handleGenerateServer (st : DispatchState) (prompt modelName serverName : String)
    (params : Option (List (String × ParamVal))) (id : String) (now : Nat) :
    RouteResult × DispatchState :=
  match getServer st.pool serverName with
  | none => (.err 404 ("Server \"" ++ serverName ++ "\" not found"), st)
  | some server =>
    if !serverSupportsModel server modelName then
      (.err 503 ("Server \"" ++ serverName ++ "\" does not have model \"" ++ modelName
        ++ "\" available"), st)
    else
      let req : PromptRequest :=
        { prompt := prompt, model := modelName, serverName := some serverName, params := params }
      let (o, st2) := dispatchOrQueue st req id now
      (.ok o, st2)

/-! ## Auxiliary definitions for the verification -/

/-- A load-counter operation on the registry. -/
inductive LoadOp where
  | inc (name : String)
  | dec (name : String)
deriving DecidableEq, Repr

def applyLoadOp (pool : List ServerStatus) : LoadOp → List ServerStatus
  | .inc n => incrementActiveRequests pool n
  | .dec n => decrementActiveRequests pool n

def applyLoadOps (pool : List ServerStatus) (ops : List LoadOp) : List ServerStatus :=
  ops.foldl applyLoadOp pool

/-- Does a backend outcome make `runRequest` reject?  (thrown network error,
or a reply whose `ok` flag is false). -/
def BackendOutcome.isFailure : BackendOutcome → Bool
  | .networkError _ => true
  | .reply r => !r.ok

/-- The message `runRequest` rejects with on a failing outcome. -/
def failureMessage : BackendOutcome → String
  | .networkError msg => msg
  | .reply r => "Ollama API error: " ++ r.statusText

/-- The spec's wording of the tag rule, for comparison with the code's
`modelMatches`: the base name is the substring before the `:` separator and
the tag is the substring after the separator, `"latest"` when absent. -/
def specBaseName (s : String) : String :=
  String.mk (s.toList.takeWhile (fun c => c ≠ ':'))

/-- Everything after the first `:` of the character list, `none` when there
is no `:`. -/
def afterFirstColon : List Char → Option (List Char)
  | [] => none
  | c :: rest => if c = ':' then some rest else afterFirstColon rest

def specTagName (s : String) : String :=
  match afterFirstColon s.toList with
  | some t => String.mk t
  | none => "latest"

def specModelMatches (a b : String) : Bool :=
  specBaseName a == specBaseName b && specTagName a == specTagName b

/-- The qualifying predicate of `getBestServerForModel`: online, hosting a
matching model, and idle. -/
def isFreeCandidate (modelName : String) (s : ServerStatus) : Bool :=
  s.isOnline && s.models.any (fun m => modelMatches m modelName) && s.activeRequests == 0

/-- Concrete pool and queue used to exercise the theorems on closed inputs:
server "a" is online with `llama3:latest` but busy, server "b" is online
with `mistral:latest` and idle. -/
def demoServerA : ServerStatus :=
  { config := { name := "a", baseUrl := "http://a" }, isOnline := true,
    models := ["llama3:latest"], activeRequests := 1, lastChecked := 0 }

def demoServerB : ServerStatus :=
  { config := { name := "b", baseUrl := "http://b" }, isOnline := true,
    models := ["mistral:latest"], activeRequests := 0, lastChecked := 0 }

def demoPool : List ServerStatus := [demoServerA, demoServerB]

def demoItem1 : QueueItem :=
  { id := "i1",
    request := { prompt := "p1", model := "llama3", serverName := some "any", params := none },
    createdAt := 1 }

def demoItem2 : QueueItem :=
  { id := "i2",
    request := { prompt := "p2", model := "mistral", serverName := some "any", params := none },
    createdAt := 2 }

def demoQueue : List QueueItem := [demoItem1, demoItem2]

/-- A concrete embedding request carrying an extra parameter. -/
def demoEmbedRequest : PromptRequest :=
  { prompt := "p", model := "m", serverName := none,
    params := some [("temperature", ParamVal.pnum 1), ("embedding", ParamVal.pbool true)] }

/-! ## Helper lemmas -/

theorem string_beq_comm (x y : String) : (x == y) = (y == x) := by
  rw [Bool.eq_iff_iff]
  simp only [beq_iff_eq]
  exact eq_comm

theorem filter_head?_eq_find? {α : Type} (p : α → Bool) (l : List α) :
    (l.filter p).head? = l.find? p := by
  induction l with
  | nil => rfl
  | cons a l ih =>
    by_cases h : p a <;> simp [List.filter_cons, List.find?_cons, h, ih]

/-! ## C10 -/

/-- C10: a request with `serverName` absent takes the same
`findServerForRequest` branch as one with `serverName = "any"`; both
delegate to `getBestServerForModel`, so dispatch behaviour is identical. -/
theorem C10_absent_serverName_behaves_like_any :
    ∀ (pool : List ServerStatus) (prompt modelName : String)
      (params : Option (List (String × ParamVal))),
      findServerForRequest pool
          { prompt := prompt, model := modelName, serverName := none, params := params }
        = findServerForRequest pool
          { prompt := prompt, model := modelName, serverName := some "any", params := params }
      ∧ findServerForRequest pool
          { prompt := prompt, model := modelName, serverName := none, params := params }
        = getBestServerForModel pool modelName := by
  intro pool prompt modelName params
  exact ⟨rfl, rfl⟩

/-! ## C5 -/

/-- C5 as frozen is false on the code: with the spec's reading of the tag as
"the substring after the `:` separator", the names `"llama3:7b:q4"` and
`"llama3:7b"` have different tags, yet the code's `modelMatches` accepts the
pair (the destructuring `[base, tag]` keeps only the second split
component). -/
theorem C5_counterexample_multicolon_tag :
    modelMatches "llama3:7b:q4" "llama3:7b" = true
    ∧ specModelMatches "llama3:7b:q4" "llama3:7b" = false :=
  ⟨by decide, by decide⟩

/-- C5 (amended): two model names match iff their bases (first `:`-separated
component) and their tags (second `:`-separated component, `"latest"` when
absent; components after a second `:` are ignored) are equal; the relation is
symmetric, `"llama3"` matches `"llama3:latest"`, and `"llama3:7b"` does not
match `"llama3:13b"`. -/
theorem C5_amended_modelMatches_base_tag :
    (∀ a b, modelMatches a b = true ↔
      ((parseModelName a).1 = (parseModelName b).1
        ∧ (parseModelName a).2 = (parseModelName b).2))
    ∧ (∀ a b, modelMatches a b = modelMatches b a)
    ∧ modelMatches "llama3" "llama3:latest" = true
    ∧ modelMatches "llama3:7b" "llama3:13b" = false := by
  refine ⟨?_, ?_, by decide, by decide⟩
  · intro a b
    simp [modelMatches, Bool.and_eq_true, beq_iff_eq]
  · intro a b
    unfold modelMatches
    rw [string_beq_comm ((parseModelName a).1) ((parseModelName b).1),
        string_beq_comm ((parseModelName a).2) ((parseModelName b).2)]

/-! ## C2 -/

/-- C2: `getBestServerForModel m` is the first server in pool (configuration)
order that is online, hosts a matching model, and is idle; it is `none`
exactly when no server qualifies. -/
theorem C2_getBestServerForModel_first_free :
    ∀ (pool : List ServerStatus) (modelName : String),
      getBestServerForModel pool modelName = pool.find? (isFreeCandidate modelName)
      ∧ (∀ s, getBestServerForModel pool modelName = some s ↔
          isFreeCandidate modelName s = true
          ∧ ∃ l₁ l₂, pool = l₁ ++ s :: l₂
              ∧ ∀ t ∈ l₁, isFreeCandidate modelName t = false)
      ∧ (getBestServerForModel pool modelName = none ↔
          ∀ s ∈ pool, isFreeCandidate modelName s = false) := by
  intro pool modelName
  have hmain : getBestServerForModel pool modelName
      = pool.find? (isFreeCandidate modelName) := by
    show (List.filter (fun s => s.activeRequests == 0)
        (List.filter (fun s =>
          s.isOnline && s.models.any (fun m => modelMatches m modelName)) pool)).head?
      = pool.find? (isFreeCandidate modelName)
    rw [List.filter_filter]
    rw [List.filter_congr (fun x _ => Bool.and_comm (x.activeRequests == 0)
      (x.isOnline && x.models.any (fun m => modelMatches m modelName)))]
    exact filter_head?_eq_find? _ _
  refine ⟨hmain, ?_, ?_⟩
  · intro s
    rw [hmain, List.find?_eq_some]
    constructor
    · rintro ⟨hp, as, bs, rfl, hall⟩
      exact ⟨hp, as, bs, rfl, fun t ht => by simpa using hall t ht⟩
    · rintro ⟨hp, as, bs, rfl, hall⟩
      exact ⟨hp, as, bs, rfl, fun t ht => by simp [hall t ht]⟩
  · rw [hmain, List.find?_eq_none]
    simp

/-- Witness for C2 on the demo pool: the first free `mistral` host is
server "b". -/
theorem C2_witness :
    getBestServerForModel demoPool "mistral" = demoPool.find? (isFreeCandidate "mistral")
    ∧ (isFreeCandidate "mistral" demoServerB = true
        ∧ ∃ l₁ l₂, demoPool = l₁ ++ demoServerB :: l₂
            ∧ ∀ t ∈ l₁, isFreeCandidate "mistral" t = false) :=
  ⟨(C2_getBestServerForModel_first_free demoPool "mistral").1,
    ((C2_getBestServerForModel_first_free demoPool "mistral").2.1 demoServerB).mp (by decide)⟩

/-! ## C4 -/

theorem applyLoadOp_nonneg (pool : List ServerStatus) (op : LoadOp)
    (h : ∀ s ∈ pool, 0 ≤ s.activeRequests) :
    ∀ s ∈ applyLoadOp pool op, 0 ≤ s.activeRequests := by
  intro s hs
  cases op with
  | inc n =>
    simp only [applyLoadOp, incrementActiveRequests, List.mem_map] at hs
    obtain ⟨t, ht, rfl⟩ := hs
    by_cases hn : t.config.name == n <;> simp [hn]
    · have := h t ht; omega
    · exact h t ht
  | dec n =>
    simp only [applyLoadOp, decrementActiveRequests, List.mem_map] at hs
    obtain ⟨t, ht, rfl⟩ := hs
    by_cases hn : (t.config.name == n && decide (0 < t.activeRequests)) = true <;> simp [hn]
    · simp only [Bool.and_eq_true, decide_eq_true_eq] at hn
      omega
    · exact h t ht

theorem applyLoadOps_nonneg (ops : List LoadOp) :
    ∀ pool, (∀ s ∈ pool, 0 ≤ s.activeRequests) →
      ∀ s ∈ applyLoadOps pool ops, 0 ≤ s.activeRequests := by
  induction ops with
  | nil => intro pool h s hs; exact h s hs
  | cons op ops ih =>
    intro pool h s hs
    exact ih (applyLoadOp pool op) (applyLoadOp_nonneg pool op h) s hs

/-- C4: counters start at 0 in `initialize`, any sequence of
increment/decrement operations keeps every server's `activeRequests`
non-negative, and a decrement on a server whose counter is 0 leaves the pool
unchanged. -/
theorem C4_activeRequests_never_negative :
    (∀ (configs : List ServerConfig) (ops : List LoadOp) (s : ServerStatus),
        s ∈ applyLoadOps (initPool configs) ops → 0 ≤ s.activeRequests)
    ∧ (∀ (pool : List ServerStatus) (name : String),
        (∀ s ∈ pool, s.config.name = name → s.activeRequests = 0) →
        decrementActiveRequests pool name = pool) := by
  constructor
  · intro configs ops s hs
    refine applyLoadOps_nonneg ops (initPool configs) ?_ s hs
    intro t ht
    simp only [initPool, List.mem_map] at ht
    obtain ⟨c, _, rfl⟩ := ht
    exact le_refl 0
  · intro pool name h
    unfold decrementActiveRequests
    rw [show pool.map _ = pool.map id by
      refine List.map_congr_left ?_
      intro s hs
      by_cases hn : s.config.name == name
      · have : s.activeRequests = 0 := h s hs (by simpa using hn)
        simp [hn, this]
      · simp [hn]]
    exact List.map_id pool

/-- Witness for C4: one server, ops inc/dec/dec starting from a fresh pool. -/
theorem C4_witness :
    (0 : Int) ≤ (ServerStatus.mk ⟨"a", "u"⟩ false [] 0 0).activeRequests
    ∧ decrementActiveRequests [ServerStatus.mk ⟨"a", "u"⟩ false [] 0 0] "a"
        = [ServerStatus.mk ⟨"a", "u"⟩ false [] 0 0] :=
  ⟨C4_activeRequests_never_negative.1 [⟨"a", "u"⟩] [.inc "a", .dec "a", .dec "a"]
      (ServerStatus.mk ⟨"a", "u"⟩ false [] 0 0) (by decide),
    C4_activeRequests_never_negative.2 [ServerStatus.mk ⟨"a", "u"⟩ false [] 0 0] "a"
      (by decide)⟩

/-! ## The processQueue scan, structurally -/

/-- The scan is accumulator-equivariant: folding from any accumulator
appends what folding from the empty accumulator (over the accumulator's
pool) produces. -/
theorem foldl_processQueueStep_factor (l : List QueueItem) :
    ∀ acc : PassResult,
      l.foldl processQueueStep acc =
        { executed := acc.executed ++ (processQueuePass acc.pool l).executed
          pool := (processQueuePass acc.pool l).pool
          remaining := acc.remaining ++ (processQueuePass acc.pool l).remaining } := by
  induction l with
  | nil =>
    intro acc
    simp [processQueuePass]
  | cons a l ih =>
    intro acc
    have hL : (a :: l).foldl processQueueStep acc
        = l.foldl processQueueStep (processQueueStep acc a) := rfl
    have hR : processQueuePass acc.pool (a :: l)
        = l.foldl processQueueStep
            (processQueueStep { executed := [], pool := acc.pool, remaining := [] } a) := rfl
    rw [hL, ih, hR, ih]
    cases hf : findServerForRequest acc.pool a.request with
    | some server => simp [processQueueStep, hf]
    | none => simp [processQueueStep, hf]

theorem processQueuePass_nil (pool : List ServerStatus) :
    processQueuePass pool [] = { executed := [], pool := pool, remaining := [] } := rfl

/-- Unfolding one queue item: a matched item is executed (and the chosen
server's counter is bumped before the rest of the scan); an unmatched item
heads the remaining queue. -/
theorem processQueuePass_cons (pool : List ServerStatus) (a : QueueItem) (l : List QueueItem) :
    processQueuePass pool (a :: l) =
      match findServerForRequest pool a.request with
      | some server =>
        { executed := (a, server.config.name)
            :: (processQueuePass (incrementActiveRequests pool server.config.name) l).executed
          pool := (processQueuePass (incrementActiveRequests pool server.config.name) l).pool
          remaining :=
            (processQueuePass (incrementActiveRequests pool server.config.name) l).remaining }
      | none =>
        { executed := (processQueuePass pool l).executed
          pool := (processQueuePass pool l).pool
          remaining := a :: (processQueuePass pool l).remaining } := by
  have h : processQueuePass pool (a :: l)
      = l.foldl processQueueStep
          (processQueueStep { executed := [], pool := pool, remaining := [] } a) := rfl
  rw [h]
  cases hf : findServerForRequest pool a.request with
  | some server =>
    rw [foldl_processQueueStep_factor]
    simp [processQueueStep, hf]
  | none =>
    rw [foldl_processQueueStep_factor]
    simp [processQueueStep, hf]

/-- Splitting the scan at a queue position. -/
theorem processQueuePass_append (pool : List ServerStatus) (l₁ l₂ : List QueueItem) :
    processQueuePass pool (l₁ ++ l₂) =
      { executed := (processQueuePass pool l₁).executed
          ++ (processQueuePass (processQueuePass pool l₁).pool l₂).executed
        pool := (processQueuePass (processQueuePass pool l₁).pool l₂).pool
        remaining := (processQueuePass pool l₁).remaining
          ++ (processQueuePass (processQueuePass pool l₁).pool l₂).remaining } := by
  show (l₁ ++ l₂).foldl processQueueStep _ = _
  rw [List.foldl_append, foldl_processQueueStep_factor]
  rfl

theorem processQueuePass_remaining_sublist (l : List QueueItem) :
    ∀ pool, (processQueuePass pool l).remaining.Sublist l := by
  induction l with
  | nil => intro pool; simp [processQueuePass_nil]
  | cons a l ih =>
    intro pool
    rw [processQueuePass_cons]
    cases hf : findServerForRequest pool a.request with
    | some server =>
      simp only [hf]
      exact (ih _).cons a
    | none =>
      simp only [hf]
      exact (ih pool).cons₂ a

theorem processQueuePass_executed_sublist (l : List QueueItem) :
    ∀ pool, ((processQueuePass pool l).executed.map Prod.fst).Sublist l := by
  induction l with
  | nil => intro pool; simp [processQueuePass_nil]
  | cons a l ih =>
    intro pool
    rw [processQueuePass_cons]
    cases hf : findServerForRequest pool a.request with
    | some server =>
      simp only [hf, List.map_cons]
      exact (ih _).cons₂ a
    | none =>
      simp only [hf]
      exact (ih pool).cons a

theorem processQueuePass_perm (l : List QueueItem) :
    ∀ pool, l.Perm ((processQueuePass pool l).executed.map Prod.fst
      ++ (processQueuePass pool l).remaining) := by
  induction l with
  | nil => intro pool; simp [processQueuePass_nil]
  | cons a l ih =>
    intro pool
    rw [processQueuePass_cons]
    cases hf : findServerForRequest pool a.request with
    | some server =>
      simp only [hf, List.map_cons, List.cons_append]
      exact (ih _).cons a
    | none =>
      simp only [hf]
      exact ((ih pool).cons a).trans List.perm_middle.symm

/-! ## C3 -/

/-- C3: one `processQueue` pass reassigns the queue to the scan's remaining
items; those keep their original relative order (sublist of the old queue),
the executed items are scanned in arrival order (also a sublist), together
they partition the old queue, and each item's fate is decided exactly by
`findServerForRequest` against the pool as evolved over the earlier items —
so a later servable item is dispatched even when an earlier one stays
blocked. -/
theorem C3_processQueue_pass_characterization :
    ∀ (pool : List ServerStatus) (queue : List QueueItem),
      (processQueue { pool := pool, queue := queue }).1.queue
          = (processQueuePass pool queue).remaining
      ∧ (processQueuePass pool queue).remaining.Sublist queue
      ∧ ((processQueuePass pool queue).executed.map Prod.fst).Sublist queue
      ∧ queue.Perm ((processQueuePass pool queue).executed.map Prod.fst
          ++ (processQueuePass pool queue).remaining)
      ∧ ∀ l₁ it l₂, queue = l₁ ++ it :: l₂ →
          (∀ server,
            findServerForRequest (processQueuePass pool l₁).pool it.request = some server →
            (processQueuePass pool queue).executed[(processQueuePass pool l₁).executed.length]?
              = some (it, server.config.name))
          ∧ (findServerForRequest (processQueuePass pool l₁).pool it.request = none →
            (processQueuePass pool queue).remaining[(processQueuePass pool l₁).remaining.length]?
              = some it) := by
  intro pool queue
  refine ⟨rfl, processQueuePass_remaining_sublist queue pool,
    processQueuePass_executed_sublist queue pool, processQueuePass_perm queue pool, ?_⟩
  rintro l₁ it l₂ rfl
  constructor
  · intro server hf
    rw [processQueuePass_append, processQueuePass_cons]
    simp only [hf]
    rw [List.getElem?_append_right (le_refl _)]
    simp
  · intro hf
    rw [processQueuePass_append, processQueuePass_cons]
    simp only [hf]
    rw [List.getElem?_append_right (le_refl _)]
    simp

/-- Witness for C3 on the demo state: item 1 (blocked, its only host is
busy) stays at the head of the remaining queue while the later item 2 is
dispatched to server "b". -/
theorem C3_witness :
    (processQueuePass demoPool demoQueue).remaining[
        (processQueuePass demoPool ([] : List QueueItem)).remaining.length]?
      = some demoItem1
    ∧ (processQueuePass demoPool demoQueue).executed[
        (processQueuePass demoPool [demoItem1]).executed.length]?
      = some (demoItem2, demoServerB.config.name) :=
  ⟨((C3_processQueue_pass_characterization demoPool demoQueue).2.2.2.2
      [] demoItem1 [demoItem2] rfl).2 (by decide),
    ((C3_processQueue_pass_characterization demoPool demoQueue).2.2.2.2
      [demoItem1] demoItem2 [] rfl).1 demoServerB (by decide)⟩

/-! ## C1 -/

/-- C1 is false as stated: `dispatchOrQueue` itself never surfaces an
Unavailable failure.  With a pool whose only online server hosts just
`mistral:latest`, a request for `llama3` — server-agnostic or naming that
server — is appended to the queue (length 1, handle pending `queued`, not
rejected). -/
theorem C1_counterexample_unhosted_model_is_queued :
    (dispatchOrQueue { pool := [demoServerB], queue := [] }
        { prompt := "p", model := "llama3", serverName := some "any", params := none }
        "id1" 0).1 = DispatchOutcome.queued "id1"
    ∧ (dispatchOrQueue { pool := [demoServerB], queue := [] }
        { prompt := "p", model := "llama3", serverName := some "any", params := none }
        "id1" 0).2.queue.length = 1
    ∧ (dispatchOrQueue { pool := [demoServerB], queue := [] }
        { prompt := "p", model := "llama3", serverName := some "b", params := none }
        "id2" 0).1 = DispatchOutcome.queued "id2"
    ∧ (dispatchOrQueue { pool := [demoServerB], queue := [] }
        { prompt := "p", model := "llama3", serverName := some "b", params := none }
        "id2" 0).2.queue.length = 1 := by
  refine ⟨by decide, by decide, by decide, by decide⟩

/-- C1 (amended): the Unavailable fast-fail lives in the prompt route
handlers, not in `dispatchOrQueue`.  When no available server hosts the
model, `/generate/any` replies 503 with the dispatcher state untouched; when
the named server lacks the model, `/generate/server` replies 503 likewise;
`dispatchOrQueue` itself, given a request no server currently matches,
enqueues it and leaves the handle pending. -/
theorem C1_amended_route_level_unavailable :
    (∀ (st : DispatchState) (prompt modelName : String)
        (params : Option (List (String × ParamVal))) (id : String) (now : Nat),
      getAvailableServersForModel st.pool modelName = [] →
      handleGenerateAny st prompt modelName params id now
        = (.err 503 ("No available servers host model \"" ++ modelName ++ "\""), st))
    ∧ (∀ (st : DispatchState) (prompt modelName serverName : String)
        (params : Option (List (String × ParamVal))) (id : String) (now : Nat)
        (server : ServerStatus),
      getServer st.pool serverName = some server →
      serverSupportsModel server modelName = false →
      handleGenerateServer st prompt modelName serverName params id now
        = (.err 503 ("Server \"" ++ serverName ++ "\" does not have model \"" ++ modelName
            ++ "\" available"), st))
    ∧ (∀ (st : DispatchState) (request : PromptRequest) (id : String) (now : Nat),
      findServerForRequest st.pool request = none →
      (dispatchOrQueue st request id now).1 = DispatchOutcome.queued id
      ∧ (dispatchOrQueue st request id now).2.queue
          = (processQueuePass st.pool
              (st.queue ++ [{ id := id, request := request, createdAt := now }])).remaining) := by
  refine ⟨?_, ?_, ?_⟩
  · intro st prompt modelName params id now h
    unfold handleGenerateAny
    rw [h]
    rfl
  · intro st prompt modelName serverName params id now server hs hsup
    unfold handleGenerateServer
    rw [hs]
    simp [hsup]
  · intro st request id now h
    unfold dispatchOrQueue
    rw [h]
    exact ⟨rfl, rfl⟩

/-- Witness for the amended C1: on a pool hosting only `mistral:latest`, the
`any` route fast-fails a `llama3` request with 503 leaving the state
unchanged, and so does the named route for server "b". -/
theorem C1_amended_witness :
    handleGenerateAny { pool := [demoServerB], queue := [] } "p" "llama3" none "id1" 0
      = (.err 503 "No available servers host model \"llama3\"",
          { pool := [demoServerB], queue := [] })
    ∧ handleGenerateServer { pool := [demoServerB], queue := [] } "p" "llama3" "b" none "id2" 0
      = (.err 503 "Server \"b\" does not have model \"llama3\" available",
          { pool := [demoServerB], queue := [] }) :=
  ⟨C1_amended_route_level_unavailable.1 { pool := [demoServerB], queue := [] }
      "p" "llama3" none "id1" 0 (by decide),
    C1_amended_route_level_unavailable.2.1 { pool := [demoServerB], queue := [] }
      "p" "llama3" "b" none "id2" 0 demoServerB (by decide) (by decide)⟩

/-! ## C6 -/

/-- Increment followed by decrement of the same server restores the pool,
provided the touched entries' counters were non-negative (always true in
reachable states). -/
theorem dec_inc_restore (pool : List ServerStatus) (name : String)
    (h : ∀ s ∈ pool, s.config.name = name → 0 ≤ s.activeRequests) :
    decrementActiveRequests (incrementActiveRequests pool name) name = pool := by
  unfold incrementActiveRequests decrementActiveRequests
  rw [List.map_map]
  have hid : ∀ s ∈ pool,
      ((fun s => if s.config.name == name && decide (0 < s.activeRequests) then
          { s with activeRequests := s.activeRequests - 1 } else s) ∘
        (fun s => if s.config.name == name then
          { s with activeRequests := s.activeRequests + 1 } else s)) s = s := by
    intro s hs
    by_cases hn : s.config.name = name
    · have h0 : 0 ≤ s.activeRequests := h s hs hn
      have hpos : (0 : Int) < s.activeRequests + 1 := by omega
      have hsub : s.activeRequests + 1 - 1 = s.activeRequests := by omega
      simp [hn, hpos, hsub]
    · simp [hn]
  rw [List.map_congr_left hid]
  exact List.map_id' pool

/-- C6: on a failing execution (network error/timeout or non-success
status), `runRequest` rejects with that failure, history is not written, the
increment/decrement pair nets to zero so the re-triggered `processQueue`
runs over the original pool, the queue is reassigned to that pass's
remaining items, and nothing is ever added back to the queue (no automatic
requeue). -/
theorem C6_failed_execution_decrements_and_retriggers :
    ∀ (pool : List ServerStatus) (queue : List QueueItem) (server : ServerStatus)
      (request : PromptRequest) (outcome : BackendOutcome) (durationMs : Nat)
      (createdAt : String),
      outcome.isFailure = true →
      (∀ s ∈ pool, s.config.name = server.config.name → 0 ≤ s.activeRequests) →
      (runRequest pool queue server request outcome durationMs createdAt).result
          = Except.error (failureMessage outcome)
      ∧ decrementActiveRequests (incrementActiveRequests pool server.config.name)
          server.config.name = pool
      ∧ (runRequest pool queue server request outcome durationMs createdAt).pool
          = (processQueuePass pool queue).pool
      ∧ (runRequest pool queue server request outcome durationMs createdAt).queue
          = (processQueuePass pool queue).remaining
      ∧ (runRequest pool queue server request outcome durationMs createdAt).executed
          = (processQueuePass pool queue).executed
      ∧ (runRequest pool queue server request outcome durationMs createdAt).queue.Sublist queue
      ∧ (runRequest pool queue server request outcome durationMs createdAt).history = [] := by
  intro pool queue server request outcome durationMs createdAt hfail hpool
  have hrestore := dec_inc_restore pool server.config.name hpool
  cases outcome with
  | networkError msg =>
    have hrun : runRequest pool queue server request (.networkError msg) durationMs createdAt
        = { result := Except.error msg,
            pool := (processQueuePass pool queue).pool,
            queue := (processQueuePass pool queue).remaining,
            executed := (processQueuePass pool queue).executed,
            history := [] } := by
      simp only [runRequest, hrestore]
    rw [hrun]
    exact ⟨rfl, hrestore, rfl, rfl, rfl, processQueuePass_remaining_sublist queue pool, rfl⟩
  | reply r =>
    have hok : r.ok = false := by
      simpa [BackendOutcome.isFailure] using hfail
    have hrun : runRequest pool queue server request (.reply r) durationMs createdAt
        = { result := Except.error ("Ollama API error: " ++ r.statusText),
            pool := (processQueuePass pool queue).pool,
            queue := (processQueuePass pool queue).remaining,
            executed := (processQueuePass pool queue).executed,
            history := [] } := by
      simp only [runRequest, hok, hrestore, Bool.not_false, if_pos]
    rw [hrun]
    exact ⟨rfl, hrestore, rfl, rfl, rfl, processQueuePass_remaining_sublist queue pool, rfl⟩

/-- Witness for C6: a network failure on an idle pool rejects with the error
message, restores the pool, and leaves the (empty) queue empty. -/
theorem C6_witness :
    (runRequest [demoServerB] [] demoServerB
        { prompt := "p", model := "mistral", serverName := some "any", params := none }
        (.networkError "boom") 5 "t").result = Except.error (failureMessage (.networkError "boom"))
    ∧ decrementActiveRequests (incrementActiveRequests [demoServerB] demoServerB.config.name)
        demoServerB.config.name = [demoServerB]
    ∧ (runRequest [demoServerB] [] demoServerB
        { prompt := "p", model := "mistral", serverName := some "any", params := none }
        (.networkError "boom") 5 "t").pool = (processQueuePass [demoServerB] []).pool
    ∧ (runRequest [demoServerB] [] demoServerB
        { prompt := "p", model := "mistral", serverName := some "any", params := none }
        (.networkError "boom") 5 "t").queue = (processQueuePass [demoServerB] []).remaining
    ∧ (runRequest [demoServerB] [] demoServerB
        { prompt := "p", model := "mistral", serverName := some "any", params := none }
        (.networkError "boom") 5 "t").executed = (processQueuePass [demoServerB] []).executed
    ∧ (runRequest [demoServerB] [] demoServerB
        { prompt := "p", model := "mistral", serverName := some "any", params := none }
        (.networkError "boom") 5 "t").queue.Sublist []
    ∧ (runRequest [demoServerB] [] demoServerB
        { prompt := "p", model := "mistral", serverName := some "any", params := none }
        (.networkError "boom") 5 "t").history = [] :=
  C6_failed_execution_decrements_and_retriggers [demoServerB] [] demoServerB
    { prompt := "p", model := "mistral", serverName := some "any", params := none }
    (.networkError "boom") 5 "t" (by decide) (by decide)

/-! ## C7 -/

/-- C7: `getModels` is total (every branch returns a list — it never raises):
a fresh cache entry is served as-is; a stale or missing entry triggers the
fetch, whose success replaces the entry and whose failure falls back to the
previous entry's models, or `[]` when there is none, leaving the cache
unchanged. -/
theorem C7_getModels_cache_and_fallback :
    ∀ (cache : List (String × CacheEntry)) (baseUrl : String)
      (outcome : TagsFetchOutcome) (now : Nat),
      (∀ e, cacheGet cache baseUrl = some e → now - e.timestamp < TTL_MS →
        getModels cache baseUrl outcome now = (e.models, cache))
      ∧ ((∀ e, cacheGet cache baseUrl = some e → TTL_MS ≤ now - e.timestamp) →
        ∀ names, outcome = .ok names →
          getModels cache baseUrl outcome now
            = (names, cacheSet cache baseUrl { models := names, timestamp := now }))
      ∧ ((∀ e, cacheGet cache baseUrl = some e → TTL_MS ≤ now - e.timestamp) →
        outcome = .failure →
          getModels cache baseUrl outcome now
            = (((cacheGet cache baseUrl).map CacheEntry.models).getD [], cache)) := by
  intro cache baseUrl outcome now
  refine ⟨?_, ?_, ?_⟩
  · intro e he hf
    simp [getModels, he, hf]
  · intro hstale names hok
    subst hok
    cases hc : cacheGet cache baseUrl with
    | none => simp [getModels, hc, refreshCache]
    | some e =>
      have h1 : ¬ (now - e.timestamp < TTL_MS) := by
        have := hstale e hc
        omega
      simp [getModels, hc, h1, refreshCache]
  · intro hstale hfail
    subst hfail
    cases hc : cacheGet cache baseUrl with
    | none => simp [getModels, hc, refreshCache]
    | some e =>
      have h1 : ¬ (now - e.timestamp < TTL_MS) := by
        have := hstale e hc
        omega
      simp [getModels, hc, h1, refreshCache]

/-- Witness for C7: a fresh hit is served from the cache; on an empty cache
a successful fetch stores and returns the names; a stale entry plus a failed
fetch falls back to the stale models with the cache unchanged. -/
theorem C7_witness :
    getModels [("u", CacheEntry.mk ["m"] 0)] "u" .failure 10
        = (["m"], [("u", CacheEntry.mk ["m"] 0)])
    ∧ getModels [] "u" (.ok ["n"]) 5
        = (["n"], cacheSet [] "u" { models := ["n"], timestamp := 5 })
    ∧ getModels [("u", CacheEntry.mk ["m"] 0)] "u" .failure 70000
        = (((cacheGet [("u", CacheEntry.mk ["m"] 0)] "u").map CacheEntry.models).getD [],
            [("u", CacheEntry.mk ["m"] 0)]) :=
  ⟨(C7_getModels_cache_and_fallback [("u", CacheEntry.mk ["m"] 0)] "u" .failure 10).1
      (CacheEntry.mk ["m"] 0) rfl (by decide),
    (C7_getModels_cache_and_fallback [] "u" (.ok ["n"]) 5).2.1
      (fun _ he => Option.noConfusion he) ["n"] rfl,
    (C7_getModels_cache_and_fallback [("u", CacheEntry.mk ["m"] 0)] "u" .failure 70000).2.2
      (fun e he => by
        rw [show cacheGet [("u", CacheEntry.mk ["m"] 0)] "u" = some (CacheEntry.mk ["m"] 0)
          from rfl] at he
        injection he with h
        subst h
        decide) rfl⟩

/-! ## C8 -/

theorem poolGet_poolSet_same (name : String) (st : ServerStatus)
    (hst : st.config.name = name) :
    ∀ pool, poolGet (poolSet pool name st) name = some st := by
  intro pool
  unfold poolSet poolGet
  by_cases h : pool.any (fun s => s.config.name == name)
  · rw [if_pos h, List.find?_map]
    have hpred : ((fun s => s.config.name == name)
        ∘ (fun s => if s.config.name == name then st else s))
        = (fun s : ServerStatus => s.config.name == name) := by
      funext s
      by_cases hs : s.config.name == name
      · simp [Function.comp, hs, hst]
      · simp [Function.comp, hs]
    rw [hpred]
    obtain ⟨x, hx⟩ := Option.isSome_iff_exists.mp
      (List.find?_isSome.mpr (List.any_eq_true.mp h))
    rw [hx]
    have h0 := List.find?_some hx
    have hxname : (x.config.name == name) = true := h0
    simp [hxname]
    intro hcon
    exact absurd (by simpa using hxname) hcon
  · rw [if_neg h, List.find?_append]
    have hnone : pool.find? (fun s => s.config.name == name) = none := by
      rw [List.find?_eq_none]
      intro x hx hpx
      exact h (List.any_eq_true.mpr ⟨x, hx, hpx⟩)
    rw [hnone]
    simp [List.find?, hst]

theorem poolGet_poolSet_ne (name name' : String) (st : ServerStatus)
    (hst : st.config.name = name) (hne : name' ≠ name) :
    ∀ pool, poolGet (poolSet pool name st) name' = poolGet pool name' := by
  intro pool
  have hstne : (st.config.name == name') = false :=
    beq_eq_false_iff_ne.mpr (by rw [hst]; exact fun h => hne h.symm)
  unfold poolSet poolGet
  by_cases h : pool.any (fun s => s.config.name == name)
  · rw [if_pos h, List.find?_map]
    have hpred : ((fun s => s.config.name == name')
        ∘ (fun s => if s.config.name == name then st else s))
        = (fun s : ServerStatus => s.config.name == name') := by
      funext s
      by_cases hs : s.config.name == name
      · have hs' : (s.config.name == name') = false := by
          rw [show s.config.name = name from by simpa using hs]
          exact beq_eq_false_iff_ne.mpr (fun hh => hne hh.symm)
        simp [Function.comp, hs, hstne, hs']
      · simp [Function.comp, hs]
    rw [hpred]
    cases hf : pool.find? (fun s => s.config.name == name') with
    | none => rfl
    | some x =>
      have h0 := List.find?_some hf
      have hx : (x.config.name == name') = true := h0
      have hxne : x.config.name ≠ name := by
        intro hh
        have hxe : x.config.name = name' := by simpa using hx
        rw [hh] at hxe
        exact hne hxe.symm
      simp [Option.map, beq_eq_false_iff_ne.mpr hxne]
  · rw [if_neg h, List.find?_append]
    cases hf : pool.find? (fun s => s.config.name == name') with
    | none => simp [List.find?, hstne]
    | some x => rfl

/-- One step of the `refreshPool` iteration. -/
theorem refreshPool_cons (pool : List ServerStatus) (c : ServerConfig)
    (rest : List ServerConfig) (results : String → List String) (now : Nat) :
    refreshPool pool (c :: rest) results now
      = refreshPool
          (poolSet pool c.name
            { config := c
              isOnline := decide (0 < (results c.baseUrl).length)
              models := results c.baseUrl
              activeRequests := ((poolGet pool c.name).map ServerStatus.activeRequests).getD 0
              lastChecked := now })
          rest results now := rfl

/-- Servers not named in the refreshed configuration keep their entry. -/
theorem refreshPool_poolGet_of_not_mem (results : String → List String) (now : Nat)
    (name : String) :
    ∀ (configs : List ServerConfig) (pool : List ServerStatus),
      name ∉ configs.map ServerConfig.name →
      poolGet (refreshPool pool configs results now) name = poolGet pool name := by
  intro configs
  induction configs with
  | nil => intro pool _; rfl
  | cons c rest ih =>
    intro pool hmem
    simp only [List.map_cons, List.mem_cons] at hmem
    push_neg at hmem
    rw [refreshPool_cons, ih _ hmem.2, poolGet_poolSet_ne c.name name _ rfl hmem.1]

/-- C8: after `refreshPool`, every configured server's entry has the fresh
`models`, `lastChecked = now`, `isOnline` true iff the refresh returned at
least one model, and the `activeRequests` counter carried over from before
the refresh (0 when the server had no entry). -/
theorem C8_refreshPool_updates_status_preserves_load :
    ∀ (pool : List ServerStatus) (configs : List ServerConfig)
      (results : String → List String) (now : Nat) (c : ServerConfig),
      (configs.map ServerConfig.name).Nodup → c ∈ configs →
      ∃ st, poolGet (refreshPool pool configs results now) c.name = some st
        ∧ st.config = c
        ∧ st.models = results c.baseUrl
        ∧ st.lastChecked = now
        ∧ (st.isOnline = true ↔ results c.baseUrl ≠ [])
        ∧ st.activeRequests = ((poolGet pool c.name).map ServerStatus.activeRequests).getD 0 := by
  intro pool configs
  induction configs generalizing pool with
  | nil => intro results now c _ hc; exact absurd hc (List.not_mem_nil c)
  | cons c₀ rest ih =>
    intro results now c hnd hc
    simp only [List.map_cons, List.nodup_cons] at hnd
    rcases List.mem_cons.mp hc with rfl | hrest
    · refine ⟨ServerStatus.mk c (decide (0 < (results c.baseUrl).length))
          (results c.baseUrl)
          (((poolGet pool c.name).map ServerStatus.activeRequests).getD 0)
          now, ?_, rfl, rfl, rfl, ?_, rfl⟩
      · rw [refreshPool_cons, refreshPool_poolGet_of_not_mem results now c.name rest _ hnd.1,
          poolGet_poolSet_same c.name _ rfl]
      · simp [List.length_pos]
    · have hname : c.name ≠ c₀.name := by
        intro h
        exact hnd.1 (h ▸ List.mem_map_of_mem ServerConfig.name hrest)
      obtain ⟨st, hget, hcfg, hmods, hlast, honl, hact⟩ :=
        ih (poolSet pool c₀.name
          { config := c₀
            isOnline := decide (0 < (results c₀.baseUrl).length)
            models := results c₀.baseUrl
            activeRequests := ((poolGet pool c₀.name).map ServerStatus.activeRequests).getD 0
            lastChecked := now }) results now c hnd.2 hrest
      refine ⟨st, ?_, hcfg, hmods, hlast, honl, ?_⟩
      · rw [refreshPool_cons]
        exact hget
      · rw [hact, poolGet_poolSet_ne c₀.name c.name _ rfl hname]

/-- Witness for C8: refreshing a two-server configuration over a pool where
server "a" already carries 5 in-flight requests keeps that counter while
refreshing its models and availability. -/
theorem C8_witness :
    ∃ st, poolGet (refreshPool
          [ServerStatus.mk ⟨"a", "u"⟩ false [] 5 0]
          [⟨"a", "u"⟩, ⟨"b", "v"⟩]
          (fun u => if u == "u" then ["m1"] else []) 7) "a"
        = some st
      ∧ st.config = ⟨"a", "u"⟩
      ∧ st.models = (fun u => if u == "u" then ["m1"] else []) "u"
      ∧ st.lastChecked = 7
      ∧ (st.isOnline = true ↔ (fun u => if u == "u" then ["m1"] else []) "u" ≠ [])
      ∧ st.activeRequests
          = ((poolGet [ServerStatus.mk ⟨"a", "u"⟩ false [] 5 0] "a").map
              ServerStatus.activeRequests).getD 0 :=
  C8_refreshPool_updates_status_preserves_load
    [ServerStatus.mk ⟨"a", "u"⟩ false [] 5 0]
    [⟨"a", "u"⟩, ⟨"b", "v"⟩]
    (fun u => if u == "u" then ["m1"] else []) 7 ⟨"a", "u"⟩ (by decide) (by decide)

/-! ## C9 -/

theorem objGet_objSet_same (k : String) (v : ParamVal) :
    ∀ o, objGet (objSet o k v) k = some v := by
  intro o
  unfold objSet objGet
  by_cases h : o.any (fun p => p.1 == k)
  · rw [if_pos h, List.find?_map]
    have hpred : ((fun p : String × ParamVal => p.1 == k)
        ∘ (fun p => if p.1 == k then (k, v) else p))
        = (fun p : String × ParamVal => p.1 == k) := by
      funext p
      by_cases hp : p.1 == k
      · simp [Function.comp, hp]
      · simp [Function.comp, hp]
    rw [hpred]
    obtain ⟨x, hx⟩ := Option.isSome_iff_exists.mp
      (List.find?_isSome.mpr (List.any_eq_true.mp h))
    rw [hx]
    have h0 := List.find?_some hx
    have hx1 : x.1 = k := by simpa using h0
    simp [hx1]
  · rw [if_neg h, List.find?_append]
    have hnone : o.find? (fun p => p.1 == k) = none := by
      rw [List.find?_eq_none]
      intro x hx hpx
      exact h (List.any_eq_true.mpr ⟨x, hx, hpx⟩)
    rw [hnone]
    simp [List.find?]

theorem objGet_objSet_ne (k k' : String) (v : ParamVal) (hne : k' ≠ k) :
    ∀ o, objGet (objSet o k v) k' = objGet o k' := by
  intro o
  have hkk : ((k, v).1 == k') = false := beq_eq_false_iff_ne.mpr (fun h => hne h.symm)
  unfold objSet objGet
  by_cases h : o.any (fun p => p.1 == k)
  · rw [if_pos h, List.find?_map]
    have hpred : ((fun p : String × ParamVal => p.1 == k')
        ∘ (fun p => if p.1 == k then (k, v) else p))
        = (fun p : String × ParamVal => p.1 == k') := by
      funext p
      by_cases hp : p.1 == k
      · have hp' : (p.1 == k') = false := by
          rw [show p.1 = k from by simpa using hp]
          exact beq_eq_false_iff_ne.mpr (fun hh => hne hh.symm)
        simp [Function.comp, hp, hkk, hp']
      · simp [Function.comp, hp]
    rw [hpred]
    cases hf : o.find? (fun p => p.1 == k') with
    | none => rfl
    | some x =>
      have h0 := List.find?_some hf
      have hx : (x.1 == k') = true := h0
      have hxne : (x.1 == k) = false := by
        refine beq_eq_false_iff_ne.mpr ?_
        intro hh
        have hxe : x.1 = k' := by simpa using hx
        rw [hh] at hxe
        exact hne hxe.symm
      simp [Option.map, hxne]
  · rw [if_neg h, List.find?_append]
    cases hf : o.find? (fun p => p.1 == k') with
    | none => simp [List.find?, hkk]
    | some x => rfl

theorem objGet_foldl_objSet_not_mem (k : String) :
    ∀ (l o : List (String × ParamVal)),
      k ∉ l.map Prod.fst →
      objGet (l.foldl (fun o kv => objSet o kv.1 kv.2) o) k = objGet o k := by
  intro l
  induction l with
  | nil => intro o _; rfl
  | cons a rest ih =>
    intro o hmem
    simp only [List.map_cons, List.mem_cons] at hmem
    push_neg at hmem
    show objGet (rest.foldl (fun o kv => objSet o kv.1 kv.2) (objSet o a.1 a.2)) k = _
    rw [ih _ hmem.2, objGet_objSet_ne a.1 k a.2 hmem.1]

theorem objGet_foldl_objSet_mem :
    ∀ (l o : List (String × ParamVal)) (k : String) (v : ParamVal),
      (l.map Prod.fst).Nodup → (k, v) ∈ l →
      objGet (l.foldl (fun o kv => objSet o kv.1 kv.2) o) k = some v := by
  intro l
  induction l with
  | nil => intro o k v _ hkv; exact absurd hkv (List.not_mem_nil _)
  | cons a rest ih =>
    intro o k v hnd hkv
    simp only [List.map_cons, List.nodup_cons] at hnd
    rcases List.mem_cons.mp hkv with rfl | hrest
    · show objGet (rest.foldl (fun o kv => objSet o kv.1 kv.2) (objSet o k v)) k = some v
      rw [objGet_foldl_objSet_not_mem k rest _ hnd.1]
      exact objGet_objSet_same k v o
    · show objGet (rest.foldl (fun o kv => objSet o kv.1 kv.2) (objSet o a.1 a.2)) k = some v
      exact ih _ k v hnd.2 hrest

theorem objGet_objDelete_self (e : String) :
    ∀ o, objGet (objDelete o e) e = none := by
  intro o
  unfold objGet objDelete
  have hnone : (o.filter (fun p => p.1 != e)).find? (fun p => p.1 == e) = none := by
    rw [List.find?_eq_none]
    intro x hx hpx
    have hkeep : (x.1 != e) = true := (List.mem_filter.mp hx).2
    rw [show x.1 = e from by simpa using hpx] at hkeep
    simp at hkeep
  rw [hnone]
  rfl

theorem objGet_objDelete_ne (k e : String) (hne : k ≠ e) :
    ∀ o, objGet (objDelete o e) k = objGet o k := by
  intro o
  induction o with
  | nil => rfl
  | cons a l ih =>
    unfold objDelete at ih ⊢
    by_cases hae : (a.1 != e) = true
    · simp only [List.filter_cons, hae, if_true]
      unfold objGet at ih ⊢
      by_cases hak : (a.1 == k) = true
      · simp [List.find?_cons, hak]
      · simp only [List.find?_cons, hak]
        simpa using ih
    · have hav : a.1 = e := by
        have h1 := hae
        simp [bne] at h1
        exact h1
      simp only [List.filter_cons, hae, if_false]
      have hak : (a.1 == k) = false := by
        rw [hav]
        exact beq_eq_false_iff_ne.mpr (fun hh => hne hh.symm)
      unfold objGet at ih ⊢
      simp only [List.find?_cons, hak]
      simpa using ih

/-- C9 is false as stated: the JS spread `{model, prompt, stream: false,
...request.params}` lets `params` override the base fields, so a request
whose `params` binds `stream: true` produces a payload with `stream: true`,
not the claimed `stream: false`. -/
theorem C9_counterexample_params_override_stream :
    objGet (buildPayload
        { prompt := "p", model := "m", serverName := none,
          params := some [("stream", ParamVal.pbool true)] }) "stream"
      = some (ParamVal.pbool true)
    ∧ ParamVal.pbool true ≠ ParamVal.pbool false :=
  ⟨by decide, by decide⟩

/-- Shared step for the untouched base keys of the payload. -/
theorem buildPayload_base_key (request : PromptRequest) (k : String) (dv : ParamVal)
    (hkey : k ≠ "embedding")
    (hbase : objGet [("model", ParamVal.pstr request.model),
        ("prompt", ParamVal.pstr request.prompt),
        ("stream", ParamVal.pbool false)] k = some dv)
    (hnone : paramGet request.params k = none) :
    objGet (buildPayload request) k = some dv := by
  cases hp : request.params with
  | none =>
    simp only [buildPayload, hp, Option.getD_none]
    rw [objGet_objDelete_ne k "embedding" hkey]
    exact hbase
  | some ps =>
    have hfind : ps.find? (fun p => p.1 == k) = none := by
      have := hnone
      rw [hp] at this
      unfold paramGet at this
      exact Option.map_eq_none'.mp this
    have hnotin : k ∉ ps.map Prod.fst := by
      intro hmem
      obtain ⟨x, hx, hfst⟩ := List.mem_map.mp hmem
      have := List.find?_eq_none.mp hfind x hx
      rw [hfst] at this
      simp at this
    simp only [buildPayload, hp, Option.getD_some]
    rw [objGet_objDelete_ne k "embedding" hkey,
      objGet_foldl_objSet_not_mem k ps _ hnotin]
    exact hbase

/-- C9 (amended): the endpoint is `/api/embeddings` exactly when the
`embedding` param is truthy and `/api/generate` otherwise; `embedding` is
always removed from the outbound payload; every other `params` entry is
forwarded verbatim; and `model`, `prompt`, `stream:false` are in the payload
whenever `params` does not itself bind those keys (a `params` entry
overrides them, as the spread is written after the base fields). -/
theorem C9_amended_endpoint_payload :
    ∀ request : PromptRequest,
      (paramTruthy request.params "embedding" = true →
        selectEndpoint request = "/api/embeddings")
      ∧ (paramTruthy request.params "embedding" = false →
        selectEndpoint request = "/api/generate")
      ∧ objGet (buildPayload request) "embedding" = none
      ∧ (∀ ps, request.params = some ps → (ps.map Prod.fst).Nodup →
          ∀ k v, (k, v) ∈ ps → k ≠ "embedding" →
            objGet (buildPayload request) k = some v)
      ∧ (paramGet request.params "model" = none →
          objGet (buildPayload request) "model" = some (ParamVal.pstr request.model))
      ∧ (paramGet request.params "prompt" = none →
          objGet (buildPayload request) "prompt" = some (ParamVal.pstr request.prompt))
      ∧ (paramGet request.params "stream" = none →
          objGet (buildPayload request) "stream" = some (ParamVal.pbool false)) := by
  intro request
  refine ⟨?_, ?_, ?_, ?_, ?_, ?_, ?_⟩
  · intro h
    simp [selectEndpoint, h]
  · intro h
    simp [selectEndpoint, h]
  · exact objGet_objDelete_self "embedding" _
  · intro ps hps hnd k v hkv hke
    simp only [buildPayload, hps, Option.getD_some]
    rw [objGet_objDelete_ne k "embedding" hke]
    exact objGet_foldl_objSet_mem ps _ k v hnd hkv
  · intro h
    exact buildPayload_base_key request "model" _ (by decide) rfl h
  · intro h
    exact buildPayload_base_key request "prompt" _ (by decide) rfl h
  · intro h
    exact buildPayload_base_key request "stream" _ (by decide) rfl h

/-- Witness for the amended C9: an embedding request with a temperature
parameter targets `/api/embeddings`, keeps `temperature`, drops `embedding`,
and carries the base fields. -/
theorem C9_amended_witness :
    selectEndpoint demoEmbedRequest = "/api/embeddings"
    ∧ objGet (buildPayload demoEmbedRequest) "embedding" = none
    ∧ objGet (buildPayload demoEmbedRequest) "temperature" = some (ParamVal.pnum 1)
    ∧ objGet (buildPayload demoEmbedRequest) "stream" = some (ParamVal.pbool false) :=
  ⟨(C9_amended_endpoint_payload demoEmbedRequest).1 (by decide),
    (C9_amended_endpoint_payload demoEmbedRequest).2.2.1,
    (C9_amended_endpoint_payload demoEmbedRequest).2.2.2.1
      [("temperature", ParamVal.pnum 1), ("embedding", ParamVal.pbool true)]
      rfl (by decide) "temperature" (ParamVal.pnum 1) (by decide) (by decide),
    (C9_amended_endpoint_payload demoEmbedRequest).2.2.2.2.2.2 (by decide)⟩

end LMApi
